import Mathlib

/-!
Verification of the school-matching and ranking engine
(`src/mcp_servers/tools/school_matcher.py`).

The Python code works on dynamically typed dictionaries.  We embed Python
values as the inductive type `Val` (numbers are modelled exactly as rationals,
per the convention that machine arithmetic is embedded exactly), dictionaries
as insertion-ordered association lists, and fallible Python expressions
(attribute errors, type errors, key errors) as `Except Unit` computations.
Each Lean definition is a direct translation of the corresponding Python
function; line references point into `school_matcher.py`.
-/

namespace SchoolMatcher

/-- A Python value, as used by the matcher: `None`, strings, numbers
(int/float collapsed into `ℚ`), booleans, lists and dicts. -/
inductive Val where
  | none : Val
  | str (s : String) : Val
  | num (q : ℚ) : Val
  | bool (b : Bool) : Val
  | list (l : List Val) : Val
  | dict (d : List (String × Val)) : Val

/-- A Python dict with string keys, as an insertion-ordered association list. -/
abbrev Rec := List (String × Val)

/-- Python truthiness (`bool(v)`). -/
def truthy : Val → Bool
  | .none => false
  | .str s => decide (s ≠ "")
  | .num q => decide (q ≠ 0)
  | .bool b => b
  | .list l => !l.isEmpty
  | .dict d => !d.isEmpty

/-- `d.get(k)` as an `Option`: first binding of `k`, if any. -/
def dget (r : Rec) (k : String) : Option Val :=
  (r.find? (fun kv => decide (kv.1 = k))).map (fun kv => kv.2)

/-- `d.get(k, default)`. -/
def rgetD (r : Rec) (k : String) (d : Val) : Val := (dget r k).getD d

/-- `d[k] = v`: replace the first binding of `k` in place, else append
(Python dicts keep the original key position on update and append new keys). -/
def dset : Rec → String → Val → Rec
  | [], k, v => [(k, v)]
  | (k2, v2) :: rest, k, v =>
    if k2 = k then (k2, v) :: rest else (k2, v2) :: dset rest k v

/-- `d[k]` with a `KeyError` when the key is absent. -/
def pyIndex (r : Rec) (k : String) : Except Unit Val :=
  match dget r k with
  | some v => .ok v
  | Option.none => .error ()

/-- `v.get(k, default)` for a value expected to be a dict: raises
(`AttributeError`) when `v` is not a dict. -/
def pyDictGet (v : Val) (k : String) (d : Val) : Except Unit Val :=
  match v with
  | .dict kvs => .ok (rgetD kvs k d)
  | _ => .error ()

/-- Numeric coercion used by Python arithmetic and order comparisons:
numbers are themselves, `True`/`False` are 1/0, everything else raises
a `TypeError`. -/
def vNum : Val → Except Unit ℚ
  | .num q => .ok q
  | .bool b => .ok (if b then 1 else 0)
  | _ => .error ()

/-- Total variant of `vNum` (0 on the non-numeric values, which are
unreachable whenever the corresponding `vNum` call succeeded). -/
def vNumD : Val → ℚ
  | .num q => q
  | .bool b => if b then 1 else 0
  | _ => 0

/-- `s.upper()` on a string (ASCII case mapping, which covers the data the
matcher compares; defined over the character list so that it evaluates). -/
def strUpper (s : String) : String := ⟨s.data.map Char.toUpper⟩

/-- `v.upper()`: defined for strings, raises (`AttributeError`) otherwise. -/
def vUpperS : Val → Except Unit String
  | .str s => .ok (strUpper s)
  | _ => .error ()

/-- Python `==` between values.  Numbers and booleans compare through their
numeric value (`True == 1`); different kinds otherwise compare unequal.
Lists and dicts are abstracted to `false` (no call site in the matcher
compares container values for equality). -/
def pyEq : Val → Val → Bool
  | .none, .none => true
  | .str a, .str b => decide (a = b)
  | .num a, .num b => decide (a = b)
  | .num a, .bool b => decide (a = (if b then 1 else 0))
  | .bool a, .num b => decide ((if a then (1 : ℚ) else 0) = b)
  | .bool a, .bool b => decide (a = b)
  | _, _ => false

/-- Python `int()` on a number: truncation toward zero. -/
def pyInt (q : ℚ) : ℤ := if 0 ≤ q then ⌊q⌋ else ⌈q⌉

/-- Round to the nearest integer, ties to even (Python `round`). -/
def roundHalfToEven (q : ℚ) : ℤ :=
  let f := ⌊q⌋
  let r := q - (f : ℚ)
  if r < 1/2 then f
  else if 1/2 < r then f + 1
  else if f % 2 = 0 then f else f + 1

/-- Python `round(x, 1)`. -/
def pyRound1 (q : ℚ) : ℚ := (roundHalfToEven (10 * q) : ℚ) / 10

/-- String interpolation of a value (`f"...{v}..."`).  Numeric formatting is
approximated (`ℚ` printing instead of Python float/int printing); no claim
depends on the interpolated digits. -/
def vRepr : Val → String
  | .none => "None"
  | .str s => s
  | .num q => toString q
  | .bool b => if b then "True" else "False"
  | .list _ => "list"
  | .dict _ => "dict"

/-- Monadic `map` over `Except`, modelling a Python `for` loop that may raise:
the first raise aborts the whole loop. -/
def mapE (f : α → Except Unit β) : List α → Except Unit (List β)
  | [] => .ok []
  | a :: as => do
    let b ← f a
    let bs ← mapE f as
    .ok (b :: bs)

/-- Monadic `filter` over `Except`, modelling a Python list comprehension whose
predicate may raise. -/
def filterE (p : α → Except Unit Bool) : List α → Except Unit (List α)
  | [] => .ok []
  | a :: as => do
    let b ← p a
    let rest ← filterE p as
    .ok (if b then a :: rest else rest)

/-! ## `rank_schools` (lines 290–351) -/

/-- Lines 307–308:
`location = student_profile.get("location", {})` and
`home_city = location.get("city", "").upper() if location else ""`.
Raises when a truthy `location` is not a dict, or the city value is not a
string. -/
def computeHomeCity (profile : Rec) : Except Unit String := do
  let location := rgetD profile "location" (.dict [])
  if truthy location then do
    let c ← pyDictGet location "city" (.str "")
    vUpperS c
  else .ok ""

/-! ### `_generate_match_reasoning` (lines 354–420)

The reason list is built by seven sequential condition blocks; each block is
translated as a function returning the (possibly empty) list of reasons it
appends. -/

/-- Lines 372–377: graduation-rate reasons. -/
def gradReasons (school : Rec) : Except Unit (List String) := do
  let grad := rgetD school "graduation_rate" .none
  if truthy grad then do
    let q ← vNum grad
    if 85 ≤ q then .ok ["✓ High graduation rate (" ++ vRepr grad ++ "%)"]
    else if 75 ≤ q then .ok ["✓ Good graduation rate (" ++ vRepr grad ++ "%)"]
    else .ok []
  else .ok []

/-- Lines 379–384: class-size reasons. -/
def ratioReasons (school : Rec) : Except Unit (List String) := do
  let r := rgetD school "student_teacher_ratio" .none
  if truthy r then do
    let q ← vNum r
    if q ≤ 18 then
      .ok ["✓ Small class sizes (" ++ vRepr r ++ ":1 student-teacher ratio)"]
    else if q ≤ 22 then
      .ok ["✓ Reasonable class sizes (" ++ vRepr r ++ ":1 ratio)"]
    else .ok []
  else .ok []

/-- Lines 386–392: STEM/AP reasons.  `interests.get("stem")` is only evaluated
when `ap_courses >= 5` held (Python `and` is short-circuiting), and the
`elif` re-tests `ap_courses > 0`. -/
def stemReasons (school profile : Rec) : Except Unit (List String) := do
  let ap := rgetD school "ap_courses" (.num 0)
  let interests := rgetD profile "interest_categories" (.dict [])
  if truthy ap then do
    let q ← vNum ap
    if 5 ≤ q then do
      let stem ← pyDictGet interests "stem" .none
      if truthy stem then
        .ok ["✓ Strong STEM programs (" ++ vRepr ap ++ " AP courses)"]
      else if 0 < q then
        .ok ["✓ Offers AP courses (" ++ vRepr ap ++ " available)"]
      else .ok []
    else if 0 < q then
      .ok ["✓ Offers AP courses (" ++ vRepr ap ++ " available)"]
    else .ok []
  else .ok []

/-- Lines 394–397: gifted-program reason.  `needs.get("gifted")` is only
evaluated when the school's flag is truthy. -/
def giftedReasons (school profile : Rec) : Except Unit (List String) := do
  let needs := rgetD profile "needs_categories" (.dict [])
  if truthy (rgetD school "has_gifted_program" .none) then do
    let g ← pyDictGet needs "gifted" .none
    if truthy g then .ok ["✓ Has Gifted & Talented program"] else .ok []
  else .ok []

/-- Lines 399–403: location reason, using
`school.get("city_location", "").upper() == home_city`. -/
def locationReasons (school profile : Rec) : Except Unit (List String) := do
  let home ← computeHomeCity profile
  if home ≠ "" then do
    let cu ← vUpperS (rgetD school "city_location" (.str ""))
    if cu = home then do
      let cv ← pyIndex school "city_location"
      .ok ["✓ Located in " ++ vRepr cv]
    else .ok []
  else .ok []

/-- Lines 405–408: school-size reason (`200 <= enrollment <= 800`). -/
def sizeReasons (school : Rec) : Except Unit (List String) := do
  let e := rgetD school "enrollment" .none
  if truthy e then do
    let q ← vNum e
    if 200 ≤ q ∧ q ≤ 800 then
      .ok ["✓ Medium-sized school (" ++ toString (pyInt q) ++ " students)"]
    else .ok []
  else .ok []

/-- Lines 410–414: the admission-type reason, emitted unconditionally
(`if charter == 0 ... else ...`). -/
def admissionReason (school : Rec) : String :=
  if pyEq (rgetD school "charter" .none) (.num 0) then
    "✓ Public school (neighborhood enrollment)"
  else
    "⚠ Charter school (lottery application required)"

/-- Lines 370–414: the condition-based reasons, in source order, ending with
the always-present admission-type reason. -/
def condReasons (school profile : Rec) : Except Unit (List String) := do
  let r1 ← gradReasons school
  let r2 ← ratioReasons school
  let r3 ← stemReasons school profile
  let r4 ← giftedReasons school profile
  let r5 ← locationReasons school profile
  let r6 ← sizeReasons school
  .ok (r1 ++ r2 ++ r3 ++ r4 ++ r5 ++ r6 ++ [admissionReason school])

/-- The generic filler reason appended at lines 416–418. -/
def fillerReason : String := "✓ Meets basic quality standards"

/-- `_generate_match_reasoning` (lines 354–420).  The `match_score` parameter
is accepted and unused, as in the source. -/
def generate_match_reasoning (school profile : Rec) (match_score : ℚ) :
    Except Unit (List String) := do
  let reasons ← condReasons school profile
  .ok (if reasons.length < 3 then reasons ++ [fillerReason] else reasons)

/-- Lines 312–338: the per-record body of the `for school in schools` loop,
producing the enriched copy of `school`.  The four key assignments happen on
`school.copy()`, which in this value model is the record itself. -/
def enrichRec (home : String) (profile school : Rec) : Except Unit Rec := do
  let cityv := rgetD school "city_location" .none
  let location_score : ℚ ←
    if home ≠ "" ∧ truthy cityv then do
      let cu ← vUpperS cityv
      .ok (if cu = home then 1 else 1/2)
    else .ok 1
  let base := rgetD school "base_match_score" (.num (1/2))
  let baseq ← vNum base
  let adjusted := baseq * (85/100) + location_score * (15/100)
  let reasoning ← generate_match_reasoning school profile adjusted
  let admission :=
    if pyEq (rgetD school "charter" .none) (.num 1) then "Charter School (Lottery)"
    else "Public School (Enrollment)"
  .ok (dset (dset (dset (dset school
      "match_score" (.num (pyRound1 (adjusted * 100))))
      "match_reasoning" (.list (reasoning.map .str)))
      "admission_type" (.str admission))
      "distance_score" (.num location_score))

/-- The sort key of line 341, `x["match_score"]`.  Every record reaching the
sort was produced by `enrichRec`, so the key is always a number; the fallback
0 is unreachable there. -/
def msKey (r : Rec) : ℚ :=
  match dget r "match_score" with
  | some (.num q) => q
  | _ => 0

/-- The order used by `ranked_schools.sort(key=lambda x: x["match_score"],
reverse=True)`: descending by score. -/
def schoolOrder (x y : Rec) : Prop := msKey y ≤ msKey x

instance : DecidableRel schoolOrder := fun x y =>
  inferInstanceAs (Decidable (msKey y ≤ msKey x))

/-- Line 341: Python's stable descending sort, modelled by insertion sort with
the non-strict descending order (equal keys keep their input order). -/
def sortSchools (l : List Rec) : List Rec := l.insertionSort schoolOrder

/-- Lines 344–345: `for i, school in enumerate(ranked_schools, 1):
school["rank"] = i`. -/
def addRanks : Nat → List Rec → List Rec
  | _, [] => []
  | i, r :: rs => dset r "rank" (.num (i : ℚ)) :: addRanks (i + 1) rs

/-- The `try` body of `rank_schools` (lines 306–347). -/
def rankBody (schools : List Rec) (profile : Rec) : Except Unit (List Rec) := do
  let home ← computeHomeCity profile
  let scored ← mapE (enrichRec home profile) schools
  .ok (addRanks 1 (sortSchools scored))

/-- `rank_schools` (lines 290–351): on any exception the original input list
is returned unchanged (lines 349–351). -/
def rank_schools (schools : List Rec) (profile : Rec) : List Rec :=
  match rankBody schools profile with
  | .ok l => l
  | .error _ => schools

/-! ## `generate_school_recommendations` (lines 423–480) and
`_generate_application_strategy` (lines 483–529) -/

/-- `Option Rec → Val`: a Python variable holding either a dict or `None`. -/
def optRecVal : Option Rec → Val
  | some r => .dict r
  | Option.none => .none

/-- Lines 497–529.  The `strategy` dict is built at lines 505–511 and then
mutated; the translation produces the final value of each key directly, in
the literal's key order. -/
def generate_application_strategy (ranked_schools : List Rec)
    (student_profile : Rec) : Except Unit Val := do
  let public_schools :=
    ranked_schools.filter (fun s => pyEq (rgetD s "charter" .none) (.num 0))
  let charter_schools :=
    ranked_schools.filter (fun s => pyEq (rgetD s "charter" .none) (.num 1))
  let top_choice : Option Rec := ranked_schools.head?
  let neighborhood_school : Option Rec := public_schools.head?
  let approachSteps : String × List String ←
    match top_choice with
    | some top =>
      if truthy (.dict top) then
        if pyEq (rgetD top "charter" .none) (.num 0) then do
          let nm ← pyIndex top "school_name"
          .ok ("Your top match (" ++ vRepr nm ++
              ") is a public school. You likely have guaranteed enrollment if you live in the attendance zone.",
            ["1. Verify you live in the school's attendance boundary",
             "2. Complete enrollment forms by district deadline",
             "3. Schedule a school tour to visit"])
        else do
          let nm ← pyIndex top "school_name"
          .ok ("Your top match (" ++ vRepr nm ++
              ") is a charter school requiring lottery application.",
            ["1. Submit lottery application before deadline (typically Jan-Feb)",
             "2. Have a backup plan (neighborhood school)",
             "3. Monitor lottery results (typically March-April)"])
      else .ok ("", [])
    | Option.none => .ok ("", [])
  let next_steps := approachSteps.2 ++
    (if charter_schools.isEmpty then []
     else ["4. Apply to " ++ toString (charter_schools.take 3).length ++
           " charter schools to maximize options"])
  .ok (.dict [
    ("recommended_approach", .str approachSteps.1),
    ("top_choice", optRecVal top_choice),
    ("neighborhood_option", optRecVal neighborhood_school),
    ("lottery_schools", .list ((charter_schools.take 3).map .dict)),
    ("next_steps", .list (next_steps.map .str))])

/-- The dict returned for an empty input list (lines 438–443). -/
def noRecommendationsDict : Val := .dict [
  ("status", .str "no_recommendations"),
  ("message", .str "No schools matched the criteria"),
  ("recommendations", .list [])]

/-- The summary f-string of lines 451–456 (before the `.strip()` applied at
line 470). -/
def mkSummary (n e g f : Nat) : String :=
  "\nFound " ++ toString n ++ " schools matching your child's profile:\n• " ++
  toString e ++ " Excellent matches (85%+ fit)\n• " ++
  toString g ++ " Good matches (70-85% fit)\n• " ++
  toString f ++ " Fair matches (50-70% fit)\n"

/-- The tier predicate of line 446 (`s["match_score"] >= 85`). -/
def isExcellent (s : Rec) : Except Unit Bool := do
  let q ← vNum (← pyIndex s "match_score")
  .ok (decide (85 ≤ q))

/-- The tier predicate of line 447 (`70 <= s["match_score"] < 85`). -/
def isGood (s : Rec) : Except Unit Bool := do
  let q ← vNum (← pyIndex s "match_score")
  .ok (decide (70 ≤ q ∧ q < 85))

/-- The tier predicate of line 448 (`50 <= s["match_score"] < 70`). -/
def isFair (s : Rec) : Except Unit Bool := do
  let q ← vNum (← pyIndex s "match_score")
  .ok (decide (50 ≤ q ∧ q < 70))

/-- The `try` body of `generate_school_recommendations` (lines 437–473). -/
def genRecsBody (ranked_schools : List Rec) (student_profile : Rec) :
    Except Unit Val := do
  if ranked_schools.isEmpty then .ok noRecommendationsDict
  else do
    let excellent ← filterE isExcellent ranked_schools
    let good ← filterE isGood ranked_schools
    let fair ← filterE isFair ranked_schools
    let summary := mkSummary ranked_schools.length
      excellent.length good.length fair.length
    let strategy ← generate_application_strategy ranked_schools student_profile
    .ok (.dict [
      ("status", .str "success"),
      ("total_matches", .num (ranked_schools.length : ℚ)),
      ("top_10", .list ((ranked_schools.take 10).map .dict)),
      ("by_category", .dict [
        ("excellent", .list ((excellent.take 5).map .dict)),
        ("good", .list ((good.take 5).map .dict)),
        ("fair", .list ((fair.take 3).map .dict))]),
      ("summary", .str summary.trim),
      ("application_strategy", strategy),
      ("student_profile", .dict student_profile)])

/-- The catch-all dict of lines 475–480 (the interpolated exception text is
abstracted to a fixed message; no claim depends on it). -/
def errorRecommendationsDict : Val := .dict [
  ("status", .str "error"),
  ("message", .str "Error generating recommendations"),
  ("recommendations", .list [])]

/-- `generate_school_recommendations` (lines 423–480). -/
def generate_school_recommendations (ranked_schools : List Rec)
    (student_profile : Rec) : Val :=
  match genRecsBody ranked_schools student_profile with
  | .ok v => v
  | .error _ => errorRecommendationsDict

/-! ## The deduplication stage of `match_schools` (lines 66–91)

Everything before line 66 (building and executing the BigQuery query) is the
external Data Source Adapter; the rows it returns enter here. -/

/-- `school.get('ncessch')` (line 70). -/
def keyOf (r : Rec) : Val := rgetD r "ncessch" .none

/-- `ncessch in seen_schools` — dict membership by Python `==`. -/
def seenContains (seen : List (Val × Rec)) (k : Val) : Bool :=
  seen.any (fun kv => pyEq kv.1 k)

/-- Lines 67–73: the dedup loop.  `seen_schools` is an insertion-ordered dict
from key to the first row carrying it; rows with falsy keys are skipped. -/
def dedupLoop : List Rec → List (Val × Rec) → List (Val × Rec)
  | [], seen => seen
  | row :: rest, seen =>
    let k := keyOf row
    if truthy k && !(seenContains seen k) then dedupLoop rest (seen ++ [(k, row)])
    else dedupLoop rest seen

/-- Line 75: `schools = list(seen_schools.values())`. -/
def dedupSchools (results : List Rec) : List Rec :=
  (dedupLoop results []).map Prod.snd

/-- Lines 66–91 of `match_schools`, from the adapter's row sequence on (the
`query` string and the profile are passed through into the result dicts). -/
def match_schools_from_rows (results : List Rec) (query : String)
    (student_profile : Rec) : Val :=
  let schools := dedupSchools results
  if schools.isEmpty then
    .dict [
      ("status", .str "no_matches"),
      ("message", .str "No schools found matching criteria"),
      ("schools", .list []),
      ("query", .str query)]
  else
    .dict [
      ("status", .str "success"),
      ("schools", .list (schools.map .dict)),
      ("count", .num (schools.length : ℚ)),
      ("query", .str query),
      ("student_profile", .dict student_profile)]

/-! ## A mutation-explicit model of `rank_schools`

To settle the frame claim (the input dicts are never mutated: all enrichment
goes to `school.copy()` at line 332, and the rank assignment at line 345
targets those copies), we repeat the `rank_schools` control flow over an
explicit heap of records, where `school.copy()` is an allocation and each
dict assignment is a heap update.  The per-record computation is shared with
the value model (`enrichRec`). -/

/-- A heap of Python dict objects; a pointer is an index. -/
abbrev Heap := List Rec

/-- Dereference (out-of-range reads return the empty dict; the theorems only
use valid pointers). -/
def hget (h : Heap) (p : Nat) : Rec := h.getD p []

/-- Overwrite the object at `p`. -/
def hset (h : Heap) (p : Nat) (r : Rec) : Heap := h.set p r

/-- Allocate a fresh object (`school.copy()` at line 332 followed by the four
key assignments of lines 333–336, whose composite value is the argument). -/
def halloc (h : Heap) (r : Rec) : Heap × Nat := (h ++ [r], h.length)

/-- The `for school in schools` loop (lines 312–338) over the heap: read each
input record, compute its enriched copy, allocate it, collect the pointers. -/
def enrichLoopH (home : String) (profile : Rec) :
    List Nat → Heap → Except Unit (List Nat × Heap)
  | [], h => .ok ([], h)
  | p :: ps, h => do
    let e ← enrichRec home profile (hget h p)
    let (h1, q) := halloc h e
    let (qs, h2) ← enrichLoopH home profile ps h1
    .ok (q :: qs, h2)

/-- Lines 344–345 over the heap: `school["rank"] = i` on the sorted copies. -/
def addRanksH : Nat → List Nat → Heap → Heap
  | _, [], h => h
  | i, p :: ps, h => addRanksH (i + 1) ps (hset h p (dset (hget h p) "rank" (.num (i : ℚ))))

/-- The `try` body of `rank_schools` over the heap. -/
def rankBodyH (ptrs : List Nat) (profile : Rec) (h : Heap) :
    Except Unit (List Nat × Heap) := do
  let home ← computeHomeCity profile
  let (qs, h1) ← enrichLoopH home profile ptrs h
  let sorted := (qs.insertionSort (fun x y => msKey (hget h1 y) ≤ msKey (hget h1 x)))
  .ok (sorted, addRanksH 1 sorted h1)

/-- `rank_schools` over the heap: on an exception the original pointer list is
returned and the heap is unchanged beyond already-performed allocations (the
except-path of lines 349–351 returns `schools`; no input object was written). -/
def rank_schools_heap (ptrs : List Nat) (profile : Rec) (h : Heap) :
    List Nat × Heap :=
  match rankBodyH ptrs profile h with
  | .ok r => r
  | .error _ => (ptrs, h)

/-! ## Basic lemmas about the dict model -/

theorem dget_cons_ne (k3 : String) (v3 : Val) (rest : Rec) (k2 : String)
    (h : k3 ≠ k2) : dget ((k3, v3) :: rest) k2 = dget rest k2 := by
  unfold dget
  rw [List.find?_cons_of_neg]
  simp [h]

theorem dget_cons_eq (k3 : String) (v3 : Val) (rest : Rec) :
    dget ((k3, v3) :: rest) k3 = some v3 := by
  unfold dget
  rw [List.find?_cons_of_pos] <;> simp

theorem dget_dset_self (r : Rec) (k : String) (v : Val) :
    dget (dset r k v) k = some v := by
  induction r with
  | nil => exact dget_cons_eq k v []
  | cons kv rest ih =>
    cases kv with
    | mk k3 v3 =>
      show dget (if k3 = k then (k3, v) :: rest else (k3, v3) :: dset rest k v) k
        = some v
      by_cases h3 : k3 = k
      · rw [if_pos h3]
        subst h3
        exact dget_cons_eq k3 v rest
      · rw [if_neg h3, dget_cons_ne _ _ _ _ h3, ih]

theorem dget_dset_ne (r : Rec) (k k2 : String) (v : Val) (h : k2 ≠ k) :
    dget (dset r k v) k2 = dget r k2 := by
  induction r with
  | nil =>
    show dget [(k, v)] k2 = dget [] k2
    rw [dget_cons_ne _ _ _ _ (Ne.symm h)]
  | cons kv rest ih =>
    cases kv with
    | mk k3 v3 =>
      show dget (if k3 = k then (k3, v) :: rest else (k3, v3) :: dset rest k v) k2
        = dget ((k3, v3) :: rest) k2
      by_cases h3 : k3 = k
      · rw [if_pos h3]
        subst h3
        rw [dget_cons_ne _ _ _ _ (Ne.symm h), dget_cons_ne _ _ _ _ (Ne.symm h)]
      · rw [if_neg h3]
        by_cases h2 : k3 = k2
        · subst h2
          rw [dget_cons_eq, dget_cons_eq]
        · rw [dget_cons_ne _ _ _ _ h2, dget_cons_ne _ _ _ _ h2, ih]

theorem vNum_ok (v : Val) (q : ℚ) (h : vNum v = .ok q) : vNumD v = q := by
  cases v <;> simp [vNum, vNumD] at h ⊢ <;> exact h

/-- Setting the `"rank"` key does not change the sort key. -/
theorem msKey_dset_rank (r : Rec) (v : Val) : msKey (dset r "rank" v) = msKey r := by
  unfold msKey
  rw [dget_dset_ne]
  decide

/-! ## Lemmas about `addRanks` -/

theorem addRanks_length (i : ℕ) (l : List Rec) :
    (addRanks i l).length = l.length := by
  induction l generalizing i with
  | nil => rfl
  | cons r rs ih => simp [addRanks, ih]

theorem mem_addRanks {b : Rec} :
    ∀ {i : ℕ} {l : List Rec}, b ∈ addRanks i l → ∃ a ∈ l, msKey b = msKey a := by
  intro i l
  induction l generalizing i with
  | nil => intro h; simp [addRanks] at h
  | cons r rs ih =>
    intro h
    simp only [addRanks, List.mem_cons] at h
    rcases h with h | h
    · exact ⟨r, List.mem_cons_self r rs, h ▸ msKey_dset_rank r _⟩
    · obtain ⟨a, ha, hk⟩ := ih h
      exact ⟨a, List.mem_cons_of_mem r ha, hk⟩

theorem pairwise_addRanks (i : ℕ) (l : List Rec) (h : l.Pairwise schoolOrder) :
    (addRanks i l).Pairwise schoolOrder := by
  induction l generalizing i with
  | nil => simp [addRanks]
  | cons r rs ih =>
    rcases List.pairwise_cons.mp h with ⟨hr, ht⟩
    refine List.pairwise_cons.mpr ⟨?_, ih (i + 1) ht⟩
    intro b hb
    obtain ⟨a, ha, hk⟩ := mem_addRanks hb
    unfold schoolOrder at hr ⊢
    rw [hk, msKey_dset_rank]
    exact hr a ha

theorem addRanks_rank_map (i : ℕ) (l : List Rec) :
    (addRanks i l).map (fun r => dget r "rank") =
      (List.range l.length).map (fun j => some (Val.num ((i + j : ℕ) : ℚ))) := by
  induction l generalizing i with
  | nil => rfl
  | cons r rs ih =>
    show dget (dset r "rank" (.num (i : ℚ))) "rank" ::
        (addRanks (i + 1) rs).map (fun r => dget r "rank") = _
    rw [dget_dset_self, ih (i + 1), List.length_cons, List.range_succ_eq_map,
      List.map_cons, List.map_map]
    refine List.cons_eq_cons.mpr ⟨?_, ?_⟩
    · show some (Val.num ((i : ℕ) : ℚ)) = some (Val.num ((i + 0 : ℕ) : ℚ))
      norm_num
    · apply List.map_congr_left
      intro j _
      show some (Val.num ((i + 1 + j : ℕ) : ℚ)) = some (Val.num ((i + Nat.succ j : ℕ) : ℚ))
      congr 3
      omega

/-! ## Lemmas about the stable descending sort -/

instance : IsTotal Rec schoolOrder :=
  ⟨fun a b => le_total (msKey b) (msKey a)⟩

instance : IsTrans Rec schoolOrder :=
  ⟨fun _ _ _ h1 h2 => le_trans h2 h1⟩

theorem sortSchools_sorted (l : List Rec) : (sortSchools l).Pairwise schoolOrder :=
  List.sorted_insertionSort schoolOrder l

theorem sortSchools_length (l : List Rec) : (sortSchools l).length = l.length :=
  List.length_insertionSort schoolOrder l

theorem filter_orderedInsert (q : ℚ) (a : Rec) (l : List Rec) :
    (List.orderedInsert schoolOrder a l).filter (fun r => decide (msKey r = q)) =
      if msKey a = q then a :: l.filter (fun r => decide (msKey r = q))
      else l.filter (fun r => decide (msKey r = q)) := by
  induction l with
  | nil => by_cases h : msKey a = q <;> simp [List.orderedInsert, h]
  | cons b bs ih =>
    by_cases hab : schoolOrder a b
    · by_cases h : msKey a = q <;>
        simp [List.orderedInsert, hab, h, List.filter_cons]
    · have hlt : msKey a < msKey b := lt_of_not_le hab
      by_cases h : msKey a = q
      · have hb : ¬ (msKey b = q) := by
          intro hbq
          rw [h] at hlt
          rw [hbq] at hlt
          exact lt_irrefl q hlt
        simp [List.orderedInsert, hab, List.filter_cons, hb, ih, h]
      · by_cases hb : msKey b = q <;>
          simp [List.orderedInsert, hab, List.filter_cons, hb, ih, h]

theorem sortSchools_filter (q : ℚ) (l : List Rec) :
    (sortSchools l).filter (fun r => decide (msKey r = q)) =
      l.filter (fun r => decide (msKey r = q)) := by
  induction l with
  | nil => rfl
  | cons a as ih =>
    show (List.orderedInsert schoolOrder a (sortSchools as)).filter _ = _
    rw [filter_orderedInsert]
    by_cases h : msKey a = q <;> simp [List.filter_cons, h, ih]

/-! ## Destructuring successful `Except` computations -/

theorem exBind_ok {α β : Type} {x : Except Unit α} {f : α → Except Unit β} {b : β}
    (h : x >>= f = .ok b) : ∃ a, x = .ok a ∧ f a = .ok b := by
  cases x with
  | error e => exact Except.noConfusion h
  | ok a => exact ⟨a, rfl, h⟩

/-! ## Lemmas about `mapE` -/

theorem mapE_ok_length {α β : Type} {f : α → Except Unit β} :
    ∀ {l : List α} {l2 : List β}, mapE f l = .ok l2 → l2.length = l.length := by
  intro l
  induction l with
  | nil => intro l2 h; cases h; rfl
  | cons a as ih =>
    intro l2 h
    simp only [mapE] at h
    obtain ⟨b, _, h⟩ := exBind_ok h
    obtain ⟨bs, hbs, h⟩ := exBind_ok h
    cases h
    simp [ih hbs]

theorem mapE_ok_get {f : Rec → Except Unit Rec} :
    ∀ {l l2 : List Rec}, mapE f l = .ok l2 →
      ∀ i, i < l.length → f (l.getD i []) = .ok (l2.getD i []) := by
  intro l
  induction l with
  | nil => intro l2 _ i hi; exact absurd hi (by simp)
  | cons a as ih =>
    intro l2 h i hi
    simp only [mapE] at h
    obtain ⟨b, hb, h⟩ := exBind_ok h
    obtain ⟨bs, hbs, h⟩ := exBind_ok h
    cases h
    cases i with
    | zero => simpa using hb
    | succ j =>
      simp only [List.getD_cons_succ]
      exact ih hbs j (by simpa using hi)

/-! ## The final-score formula of `rank_schools` -/

/-- The base score the loop uses (line 322):
`school.get("base_match_score", 0.5)`, coerced to a number.  Non-numeric
values make `rank_schools` raise (and take the except path), so the total
coercion `vNumD` agrees with the code on every record that reaches a
successful result. -/
def baseScoreOf (school : Rec) : ℚ :=
  vNumD (rgetD school "base_match_score" (.num (1/2)))

/-- The location score as lines 313–319 compute it: the default 1.0 stands
unless both a home city and a truthy record city are present; then 1.0 on
case-insensitive match and 0.5 otherwise.  (A truthy non-string city makes
the code raise; the value returned here for that branch is never used under
a success hypothesis.) -/
def locationScoreOf (home : String) (school : Rec) : ℚ :=
  if home ≠ "" ∧ truthy (rgetD school "city_location" .none) then
    match rgetD school "city_location" .none with
    | .str c => if strUpper c = home then 1 else 1/2
    | _ => 1
  else 1

/-- The location score exactly as claim C2 words it: 1.0 if the profile gives
no home city, 1.0 if the record's city case-insensitively equals the home
city, and 0.5 otherwise (in particular 0.5 when a home city is given but the
record carries no city at all, since an absent city does not equal a
non-empty home city). -/
def claimLocationScore (home : String) (school : Rec) : ℚ :=
  if home = "" then 1
  else
    match rgetD school "city_location" .none with
    | .str c => if strUpper c = home then 1 else 1/2
    | _ => 1/2

/-- Every successfully enriched record carries the final match score
`round(100 * (base*0.85 + location*0.15), 1)`, with the location score as
the code computes it. -/
theorem enrichRec_match_score (home : String) (profile school e : Rec)
    (h : enrichRec home profile school = .ok e) :
    dget e "match_score" =
      some (.num (pyRound1 (100 * (baseScoreOf school * (85/100) +
        locationScoreOf home school * (15/100))))) := by
  simp only [enrichRec] at h
  by_cases hcond : home ≠ "" ∧ truthy (rgetD school "city_location" .none) = true
  · rw [if_pos hcond] at h
    obtain ⟨cu, hcu, h⟩ := exBind_ok h
    obtain ⟨ls, hls, h⟩ := exBind_ok h
    obtain ⟨bq, hbq, h⟩ := exBind_ok h
    obtain ⟨rs, hrs, h⟩ := exBind_ok h
    cases h
    cases hls
    rw [dget_dset_ne _ _ _ _ (by decide), dget_dset_ne _ _ _ _ (by decide),
      dget_dset_ne _ _ _ _ (by decide), dget_dset_self]
    have h2 : locationScoreOf home school = (if cu = home then (1 : ℚ) else 1/2) := by
      unfold locationScoreOf
      rw [if_pos hcond]
      cases hcity : rgetD school "city_location" .none with
      | str c =>
        rw [hcity] at hcu
        simp only [vUpperS] at hcu
        cases hcu
        rfl
      | none => rw [hcity] at hcu; exact Except.noConfusion hcu
      | num q => rw [hcity] at hcu; exact Except.noConfusion hcu
      | bool b => rw [hcity] at hcu; exact Except.noConfusion hcu
      | list l => rw [hcity] at hcu; exact Except.noConfusion hcu
      | dict d => rw [hcity] at hcu; exact Except.noConfusion hcu
    unfold baseScoreOf
    rw [vNum_ok _ _ hbq, h2]
    congr 3
    ring
  · rw [if_neg hcond] at h
    obtain ⟨ls, hls, h⟩ := exBind_ok h
    obtain ⟨bq, hbq, h⟩ := exBind_ok h
    obtain ⟨rs, hrs, h⟩ := exBind_ok h
    cases h
    cases hls
    rw [dget_dset_ne _ _ _ _ (by decide), dget_dset_ne _ _ _ _ (by decide),
      dget_dset_ne _ _ _ _ (by decide), dget_dset_self]
    have h2 : locationScoreOf home school = 1 := by
      unfold locationScoreOf
      rw [if_neg hcond]
    unfold baseScoreOf
    rw [vNum_ok _ _ hbq, h2]
    congr 3
    ring

/-- On a successful body, `rank_schools` returns the sorted, rank-annotated
enrichment of its input. -/
theorem rank_schools_ok (schools : List Rec) (profile : Rec) (home : String)
    (scored : List Rec)
    (hh : computeHomeCity profile = .ok home)
    (hm : mapE (enrichRec home profile) schools = .ok scored) :
    rank_schools schools profile = addRanks 1 (sortSchools scored) := by
  have h1 : rankBody schools profile = .ok (addRanks 1 (sortSchools scored)) := by
    unfold rankBody
    rw [hh]
    show mapE (enrichRec home profile) schools >>= _ = _
    rw [hm]
    rfl
  unfold rank_schools
  rw [h1]

/-! ## Concrete inputs used by witnesses and counterexamples -/

/-- A student profile whose home city is Springfield. -/
def springfieldProfile : Rec := [("location", .dict [("city", .str "Springfield")])]

/-- A record in the home city with base score 0.9. -/
def springfieldHigh : Rec :=
  [("school_name", .str "Springfield High"), ("city_location", .str "Springfield"),
   ("base_match_score", .num (9/10)), ("charter", .num 0)]

/-! ## Claim C2 -/

/-- Claim C2, stated with the spec's location score (`claimLocationScore`), is
false: for a record with no city value and a profile with home city
Springfield, the code keeps the default location score 1.0 and produces the
final score 57.5, while the claim's "0.5 otherwise" clause demands 50.0. -/
theorem claim_C2_counterexample :
    ¬ ∀ (schools : List Rec) (profile : Rec) (home : String) (scored : List Rec),
        computeHomeCity profile = .ok home →
        mapE (enrichRec home profile) schools = .ok scored →
        ∀ i, i < schools.length →
          dget (scored.getD i []) "match_score" =
            some (.num (pyRound1 (100 * (baseScoreOf (schools.getD i []) * (85/100) +
              claimLocationScore home (schools.getD i []) * (15/100))))) := by
  intro hclaim
  have h0 := hclaim [[]] springfieldProfile "SPRINGFIELD"
      ((mapE (enrichRec "SPRINGFIELD" springfieldProfile) [[]]).toOption.getD [])
      (by with_unfolding_all rfl) (by with_unfolding_all rfl) 0 (by decide)
  have h1 : dget (((mapE (enrichRec "SPRINGFIELD" springfieldProfile)
      [[]]).toOption.getD []).getD 0 []) "match_score" = some (.num (115/2)) := by
    with_unfolding_all rfl
  have h2 : pyRound1 (100 * (baseScoreOf (([[]] : List Rec).getD 0 []) * (85/100) +
      claimLocationScore "SPRINGFIELD" (([[]] : List Rec).getD 0 []) * (15/100))) = 50 := by
    with_unfolding_all rfl
  rw [h2, h1] at h0
  simp only [Option.some.injEq, Val.num.injEq] at h0
  norm_num at h0

/-- Claim C2 (amended): the final match score of every input record is
`round(100 * (base*0.85 + location*0.15), 1)` where the location score is 1.0
when no home city is given or the record carries no truthy city, 1.0 on a
case-insensitive city match, and 0.5 only when both cities are present and
differ (`locationScoreOf`); `rank_schools` returns these scored records,
sorted and rank-annotated. -/
theorem claim_C2_amended (schools : List Rec) (profile : Rec) (home : String)
    (scored : List Rec)
    (hh : computeHomeCity profile = .ok home)
    (hm : mapE (enrichRec home profile) schools = .ok scored) :
    rank_schools schools profile = addRanks 1 (sortSchools scored) ∧
    ∀ i, i < schools.length →
      dget (scored.getD i []) "match_score" =
        some (.num (pyRound1 (100 * (baseScoreOf (schools.getD i []) * (85/100) +
          locationScoreOf home (schools.getD i []) * (15/100))))) := by
  refine ⟨rank_schools_ok schools profile home scored hh hm, ?_⟩
  intro i hi
  exact enrichRec_match_score home profile _ _ (mapE_ok_get hm i hi)

/-- Witness for C2 (amended) at a concrete record in the home city with base
score 0.9. -/
theorem claim_C2_witness :
    dget (((mapE (enrichRec "SPRINGFIELD" springfieldProfile)
        [springfieldHigh]).toOption.getD []).getD 0 []) "match_score" =
      some (.num (pyRound1 (100 *
        (baseScoreOf (([springfieldHigh] : List Rec).getD 0 []) * (85/100) +
         locationScoreOf "SPRINGFIELD" (([springfieldHigh] : List Rec).getD 0 []) *
           (15/100))))) :=
  (claim_C2_amended [springfieldHigh] springfieldProfile "SPRINGFIELD"
    ((mapE (enrichRec "SPRINGFIELD" springfieldProfile) [springfieldHigh]).toOption.getD [])
    (by with_unfolding_all rfl) (by with_unfolding_all rfl)).2 0 (by decide)

/-! ## Claim C10 -/

/-- Claim C10: a record with no `base_match_score` field is scored with the
default base 0.5, so its final score is `round(100 * (0.5*0.85 +
location*0.15), 1)` instead of an error. -/
theorem claim_C10 (home : String) (profile school e : Rec)
    (hnb : dget school "base_match_score" = Option.none)
    (h : enrichRec home profile school = .ok e) :
    dget e "match_score" =
      some (.num (pyRound1 (100 * ((1/2) * (85/100) +
        locationScoreOf home school * (15/100))))) := by
  rw [enrichRec_match_score home profile school e h]
  have h2 : baseScoreOf school = 1/2 := by
    unfold baseScoreOf rgetD
    rw [hnb]
    rfl
  rw [h2]

/-- Witness for C10 at a concrete record lacking `base_match_score`. -/
theorem claim_C10_witness :
    dget ((enrichRec "" [] [("graduation_rate", .num 92)]).toOption.getD [])
        "match_score" =
      some (.num (pyRound1 (100 * ((1/2) * (85/100) +
        locationScoreOf "" [("graduation_rate", .num 92)] * (15/100))))) :=
  claim_C10 "" [] [("graduation_rate", .num 92)]
    ((enrichRec "" [] [("graduation_rate", .num 92)]).toOption.getD [])
    (by rfl) (by with_unfolding_all rfl)

/-! ## Claim C3 -/

/-- Claim C3: the list returned by `rank_schools` is sorted non-increasing by
final match score, and the stable sort preserves the relative input order of
records with equal scores: filtering the sorted list to any fixed score
yields exactly the same-order filtering of the pre-sort scored list. -/
theorem claim_C3 (schools : List Rec) (profile : Rec) (home : String)
    (scored : List Rec)
    (hh : computeHomeCity profile = .ok home)
    (hm : mapE (enrichRec home profile) schools = .ok scored) :
    rank_schools schools profile = addRanks 1 (sortSchools scored) ∧
    (rank_schools schools profile).Pairwise schoolOrder ∧
    ∀ q : ℚ, (sortSchools scored).filter (fun r => decide (msKey r = q)) =
      scored.filter (fun r => decide (msKey r = q)) := by
  have he := rank_schools_ok schools profile home scored hh hm
  refine ⟨he, ?_, fun q => sortSchools_filter q scored⟩
  rw [he]
  exact pairwise_addRanks 1 _ (sortSchools_sorted scored)

/-- Two records that tie at 74.5 and one that scores 91.5. -/
def tieA : Rec := [("school_name", .str "A"), ("base_match_score", .num (7/10))]

def tieB : Rec := [("school_name", .str "B"), ("base_match_score", .num (7/10))]

/-- Witness for C3 on a concrete list with a score tie. -/
theorem claim_C3_witness :
    rank_schools [tieA, tieB, springfieldHigh] springfieldProfile =
      addRanks 1 (sortSchools
        ((mapE (enrichRec "SPRINGFIELD" springfieldProfile)
          [tieA, tieB, springfieldHigh]).toOption.getD [])) :=
  (claim_C3 [tieA, tieB, springfieldHigh] springfieldProfile "SPRINGFIELD"
    ((mapE (enrichRec "SPRINGFIELD" springfieldProfile)
      [tieA, tieB, springfieldHigh]).toOption.getD [])
    (by with_unfolding_all rfl) (by with_unfolding_all rfl)).1

/-! ## Claim C4 -/

/-- Claim C4: after sorting, the ranks assigned by `rank_schools` are exactly
1..N in list order (N = input length), with no gaps and no duplicates. -/
theorem claim_C4 (schools : List Rec) (profile : Rec) (out : List Rec)
    (hne : schools ≠ [])
    (hok : rankBody schools profile = .ok out) :
    rank_schools schools profile = out ∧
    out.map (fun r => dget r "rank") =
      (List.range schools.length).map (fun j => some (Val.num ((1 + j : ℕ) : ℚ))) ∧
    out.length = schools.length := by
  unfold rankBody at hok
  obtain ⟨home, hh, hok⟩ := exBind_ok hok
  obtain ⟨scored, hm, hok⟩ := exBind_ok hok
  cases hok
  refine ⟨rank_schools_ok schools profile home scored hh hm, ?_, ?_⟩
  · rw [addRanks_rank_map, sortSchools_length, mapE_ok_length hm]
  · rw [addRanks_length, sortSchools_length, mapE_ok_length hm]

/-- Witness for C4 on a concrete two-record list. -/
theorem claim_C4_witness :
    ((rankBody [springfieldHigh, tieA] springfieldProfile).toOption.getD []).map
      (fun r => dget r "rank") =
      (List.range ([springfieldHigh, tieA] : List Rec).length).map
        (fun j => some (Val.num ((1 + j : ℕ) : ℚ))) :=
  (claim_C4 [springfieldHigh, tieA] springfieldProfile
    ((rankBody [springfieldHigh, tieA] springfieldProfile).toOption.getD [])
    (List.cons_ne_nil _ _) (by with_unfolding_all rfl)).2.1

/-! ## Claim C7 -/

/-- Claim C7: when the body of `rank_schools` raises anywhere (scoring,
sorting or ranking), the exception is caught and the original input list is
returned unchanged. -/
theorem claim_C7 (schools : List Rec) (profile : Rec) (e : Unit)
    (h : rankBody schools profile = .error e) :
    rank_schools schools profile = schools := by
  unfold rank_schools
  rw [h]

/-- Witness for C7: a profile whose `location` is a truthy non-dict makes
`location.get("city", "")` raise, and the input list comes back unchanged. -/
theorem claim_C7_witness :
    rank_schools [[("school_name", .str "X")]] [("location", .str "Springfield")] =
      [[("school_name", .str "X")]] :=
  claim_C7 _ _ () (by with_unfolding_all rfl)

/-! ## Claim C1 -/

/-- A successful `condReasons` always carries at least the admission-type
reason. -/
theorem condReasons_ok_length (school profile : Rec) (rs : List String)
    (h : condReasons school profile = .ok rs) : 1 ≤ rs.length := by
  unfold condReasons at h
  obtain ⟨r1, _, h⟩ := exBind_ok h
  obtain ⟨r2, _, h⟩ := exBind_ok h
  obtain ⟨r3, _, h⟩ := exBind_ok h
  obtain ⟨r4, _, h⟩ := exBind_ok h
  obtain ⟨r5, _, h⟩ := exBind_ok h
  obtain ⟨r6, _, h⟩ := exBind_ok h
  cases h
  simp only [List.length_append, List.length_cons, List.length_nil]
  omega

/-- Claim C1 as stated ("at least 3 reasons for every input") is false: on a
record with no qualifying metrics only the admission-type reason is emitted,
the filler brings the total to 2, and the result has fewer than 3 entries. -/
theorem claim_C1_counterexample :
    ¬ ∀ (school profile : Rec) (ms : ℚ) (l : List String),
        generate_match_reasoning school profile ms = .ok l → 3 ≤ l.length := by
  intro hclaim
  have h := hclaim [] [] 0
      ["⚠ Charter school (lottery application required)", fillerReason]
      (by with_unfolding_all rfl)
  exact absurd h (by decide)

/-- Claim C1 (amended): the reasoning list always has at least 2 entries (the
admission-type reason is unconditional); when fewer than 3 condition-based
reasons qualify, the generic "meets basic quality standards" filler is
appended as the final entry (which can still leave only 2 entries); with 3 or
more qualifying reasons the list is returned unchanged. -/
theorem claim_C1_amended (school profile : Rec) (ms : ℚ) (rs l : List String)
    (hc : condReasons school profile = .ok rs)
    (h : generate_match_reasoning school profile ms = .ok l) :
    2 ≤ l.length ∧
    (rs.length < 3 → l.getLast? = some fillerReason) ∧
    (3 ≤ rs.length → l = rs) := by
  unfold generate_match_reasoning at h
  rw [hc] at h
  have h2 : Except.ok (if rs.length < 3 then rs ++ [fillerReason] else rs) =
      Except.ok l := h
  cases h2
  have hr := condReasons_ok_length school profile rs hc
  by_cases hlen : rs.length < 3
  · rw [if_pos hlen]
    refine ⟨?_, fun _ => List.getLast?_concat rs, fun h3 => absurd h3 (by omega)⟩
    simp only [List.length_append, List.length_cons, List.length_nil]
    omega
  · rw [if_neg hlen]
    exact ⟨by omega, fun h3 => absurd h3 (by omega), fun _ => rfl⟩

/-- Witness for C1 (amended) on the all-defaults record: one condition-based
reason, so the filler is the final entry. -/
theorem claim_C1_witness :
    (["⚠ Charter school (lottery application required)", fillerReason] :
      List String).getLast? = some fillerReason :=
  (claim_C1_amended [] [] 0 ["⚠ Charter school (lottery application required)"]
    ["⚠ Charter school (lottery application required)", fillerReason]
    (by with_unfolding_all rfl) (by with_unfolding_all rfl)).2.1 (by decide)

/-! ## Claim C6 -/

/-- Claim C6: the empty input list makes `generate_school_recommendations`
return the `no_recommendations` dict (status, guidance message, and an empty
recommendations payload) for every profile, with no exception raised. -/
theorem claim_C6 (profile : Rec) :
    generate_school_recommendations [] profile = .dict [
      ("status", .str "no_recommendations"),
      ("message", .str "No schools matched the criteria"),
      ("recommendations", .list [])] := rfl

/-! ## Claim C5 -/

/-- Lookup in a Python value expected to be a dict. -/
def vDictGet (v : Val) (k : String) : Option Val :=
  match v with
  | .dict d => dget d k
  | _ => Option.none

theorem vDictGet_dict (d : Rec) (k : String) : vDictGet (.dict d) k = dget d k := rfl

theorem isExcellent_ok (s : Rec) (q : ℚ)
    (hq : dget s "match_score" = some (.num q)) :
    isExcellent s = .ok (decide (85 ≤ q)) := by
  unfold isExcellent
  rw [show pyIndex s "match_score" = .ok (.num q) by unfold pyIndex; rw [hq]]
  rfl

theorem isGood_ok (s : Rec) (q : ℚ)
    (hq : dget s "match_score" = some (.num q)) :
    isGood s = .ok (decide (70 ≤ q ∧ q < 85)) := by
  unfold isGood
  rw [show pyIndex s "match_score" = .ok (.num q) by unfold pyIndex; rw [hq]]
  rfl

theorem isFair_ok (s : Rec) (q : ℚ)
    (hq : dget s "match_score" = some (.num q)) :
    isFair s = .ok (decide (50 ≤ q ∧ q < 70)) := by
  unfold isFair
  rw [show pyIndex s "match_score" = .ok (.num q) by unfold pyIndex; rw [hq]]
  rfl

/-- On numerically scored records, an exception-free tier comprehension is the
pure filter on the score. -/
theorem filterE_score (p : ℚ → Bool) (tier : Rec → Except Unit Bool)
    (htier : ∀ s q, dget s "match_score" = some (.num q) → tier s = .ok (p q))
    (l : List Rec)
    (h : ∀ s ∈ l, ∃ q, dget s "match_score" = some (.num q)) :
    filterE tier l = .ok (l.filter (fun s => p (msKey s))) := by
  induction l with
  | nil => rfl
  | cons a as ih =>
    obtain ⟨q, hq⟩ := h a (List.mem_cons_self a as)
    have hms : msKey a = q := by unfold msKey; rw [hq]
    simp only [filterE]
    rw [htier a q hq, ih (fun s hs => h s (List.mem_cons_of_mem a hs))]
    show Except.ok (if p q = true
        then a :: as.filter (fun s => p (msKey s))
        else as.filter (fun s => p (msKey s))) = _
    rw [List.filter_cons, hms]

/-- The four tiers of §4.5 partition any scored list. -/
theorem tier_counts (l : List Rec) :
    (l.filter (fun s => decide (85 ≤ msKey s))).length +
    (l.filter (fun s => decide (70 ≤ msKey s ∧ msKey s < 85))).length +
    (l.filter (fun s => decide (50 ≤ msKey s ∧ msKey s < 70))).length +
    (l.filter (fun s => decide (msKey s < 50))).length = l.length := by
  induction l with
  | nil => rfl
  | cons a as ih =>
    simp only [List.filter_cons, decide_eq_true_eq, List.length_cons]
    by_cases h1 : 85 ≤ msKey a
    · rw [if_pos h1, if_neg (fun hc => absurd hc.2 (not_lt.mpr h1)),
        if_neg (fun hc => absurd hc.2 (not_lt.mpr (by linarith))),
        if_neg (not_lt.mpr (by linarith))]
      simp only [List.length_cons]
      omega
    · by_cases h2 : 70 ≤ msKey a
      · rw [if_neg h1, if_pos ⟨h2, lt_of_not_le h1⟩,
          if_neg (fun hc => absurd hc.2 (not_lt.mpr (by linarith))),
          if_neg (not_lt.mpr (by linarith))]
        simp only [List.length_cons]
        omega
      · by_cases h3 : 50 ≤ msKey a
        · rw [if_neg h1, if_neg (fun hc => absurd hc.1 h2),
            if_pos ⟨h3, lt_of_not_le h2⟩, if_neg (not_lt.mpr (by linarith))]
          simp only [List.length_cons]
          omega
        · rw [if_neg h1, if_neg (fun hc => absurd hc.1 h2),
            if_neg (fun hc => absurd hc.1 h3), if_pos (lt_of_not_le h3)]
          simp only [List.length_cons]
          omega

/-- Claim C5: on a successful run over numerically scored records, the bundle
partitions the ranked list into Excellent (≥85) / Good (70–85) / Fair
(50–70) and the implicit Consider (<50) tier, the four counts summing to the
total; and the `by_category` lists are the tiers truncated to 5, 5 and 3. -/
theorem claim_C5 (ranked : List Rec) (profile : Rec) (v : Val)
    (hne : ranked ≠ [])
    (hty : ∀ s ∈ ranked, ∃ q, dget s "match_score" = some (.num q))
    (hok : genRecsBody ranked profile = .ok v) :
    vDictGet v "by_category" = some (.dict [
      ("excellent", .list
        (((ranked.filter (fun s => decide (85 ≤ msKey s))).take 5).map .dict)),
      ("good", .list
        (((ranked.filter (fun s => decide (70 ≤ msKey s ∧ msKey s < 85))).take 5).map .dict)),
      ("fair", .list
        (((ranked.filter (fun s => decide (50 ≤ msKey s ∧ msKey s < 70))).take 3).map .dict))]) ∧
    (ranked.filter (fun s => decide (85 ≤ msKey s))).length +
    (ranked.filter (fun s => decide (70 ≤ msKey s ∧ msKey s < 85))).length +
    (ranked.filter (fun s => decide (50 ≤ msKey s ∧ msKey s < 70))).length +
    (ranked.filter (fun s => decide (msKey s < 50))).length = ranked.length := by
  refine ⟨?_, tier_counts ranked⟩
  unfold genRecsBody at hok
  rw [if_neg (by rw [List.isEmpty_eq_false.mpr hne]; exact Bool.false_ne_true)] at hok
  obtain ⟨ex, hex, hok⟩ := exBind_ok hok
  obtain ⟨gd, hgd, hok⟩ := exBind_ok hok
  obtain ⟨fr, hfr, hok⟩ := exBind_ok hok
  obtain ⟨strat, hstrat, hok⟩ := exBind_ok hok
  cases hok
  rw [filterE_score (fun q => decide (85 ≤ q)) isExcellent isExcellent_ok ranked hty]
    at hex
  rw [filterE_score (fun q => decide (70 ≤ q ∧ q < 85)) isGood isGood_ok ranked hty]
    at hgd
  rw [filterE_score (fun q => decide (50 ≤ q ∧ q < 70)) isFair isFair_ok ranked hty]
    at hfr
  cases hex
  cases hgd
  cases hfr
  rw [vDictGet_dict, dget_cons_ne _ _ _ _ (by decide), dget_cons_ne _ _ _ _ (by decide),
    dget_cons_ne _ _ _ _ (by decide), dget_cons_eq]

/-- Concrete ranked records used by the C5 witness. -/
def ranked1 : Rec :=
  [("school_name", .str "Springfield High"), ("match_score", .num 90),
   ("charter", .num 0)]

def ranked2 : Rec :=
  [("school_name", .str "Shelbyville Elementary"), ("match_score", .num 60),
   ("charter", .num 1)]

/-- Witness for C5 on a concrete two-record ranked list. -/
theorem claim_C5_witness :
    (([ranked1, ranked2] : List Rec).filter (fun s => decide (85 ≤ msKey s))).length +
    (([ranked1, ranked2] : List Rec).filter
      (fun s => decide (70 ≤ msKey s ∧ msKey s < 85))).length +
    (([ranked1, ranked2] : List Rec).filter
      (fun s => decide (50 ≤ msKey s ∧ msKey s < 70))).length +
    (([ranked1, ranked2] : List Rec).filter (fun s => decide (msKey s < 50))).length =
      ([ranked1, ranked2] : List Rec).length :=
  (claim_C5 [ranked1, ranked2] [] ((genRecsBody [ranked1, ranked2] []).toOption.getD .none)
    (List.cons_ne_nil _ _)
    (by
      intro s hs
      rcases List.mem_cons.mp hs with rfl | hs
      · exact ⟨90, by with_unfolding_all rfl⟩
      rcases List.mem_cons.mp hs with rfl | hs
      · exact ⟨60, by with_unfolding_all rfl⟩
      cases hs)
    (by with_unfolding_all rfl)).2

/-! ## Claim C8 -/

/-- First-occurrence deduplication of a key sequence (the reference notion of
"the unique keys, in first-seen order" against which the dedup loop is
checked). -/
def dedupKeysAux : List Val → List Val → List Val
  | [], acc => acc
  | k :: ks, acc =>
    if acc.any (fun a => pyEq a k) then dedupKeysAux ks acc
    else dedupKeysAux ks (acc ++ [k])

/-- The unique keys of a sequence, in first-occurrence order. -/
def dedupKeys (l : List Val) : List Val := dedupKeysAux l []

theorem pyEq_str_iff (v : Val) (s : String) :
    pyEq v (.str s) = true ↔ v = .str s := by
  cases v <;> simp [pyEq]

theorem seenContains_map (seen : List (Val × Rec)) (k : Val) :
    (seen.map Prod.fst).any (fun a => pyEq a k) = seenContains seen k := by
  unfold seenContains
  induction seen with
  | nil => rfl
  | cons kv rest ih => simp only [List.map_cons, List.any_cons, ih]

theorem dedupLoop_cons_mem (row : Rec) (rest : List Rec) (seen : List (Val × Rec))
    (h : truthy (keyOf row) = true) (hc : seenContains seen (keyOf row) = true) :
    dedupLoop (row :: rest) seen = dedupLoop rest seen := by
  simp [dedupLoop, h, hc]

theorem dedupLoop_cons_new (row : Rec) (rest : List Rec) (seen : List (Val × Rec))
    (h : truthy (keyOf row) = true) (hc : seenContains seen (keyOf row) = false) :
    dedupLoop (row :: rest) seen = dedupLoop rest (seen ++ [(keyOf row, row)]) := by
  simp [dedupLoop, h, hc]

theorem dedupKeysAux_cons_mem (k : Val) (ks acc : List Val)
    (hc : acc.any (fun a => pyEq a k) = true) :
    dedupKeysAux (k :: ks) acc = dedupKeysAux ks acc := by
  simp [dedupKeysAux, hc]

theorem dedupKeysAux_cons_new (k : Val) (ks acc : List Val)
    (hc : acc.any (fun a => pyEq a k) = false) :
    dedupKeysAux (k :: ks) acc = dedupKeysAux ks (acc ++ [k]) := by
  simp [dedupKeysAux, hc]

/-- The keys retained by the dedup loop are exactly the first-occurrence
deduplication of the incoming key sequence. -/
theorem dedupLoop_fst : ∀ (rest : List Rec) (seen : List (Val × Rec)),
    (∀ r ∈ rest, truthy (keyOf r) = true) →
    (dedupLoop rest seen).map Prod.fst =
      dedupKeysAux (rest.map keyOf) (seen.map Prod.fst) := by
  intro rest
  induction rest with
  | nil => intro seen _; rfl
  | cons row rs ih =>
    intro seen h
    have htr : truthy (keyOf row) = true := h row (List.mem_cons_self _ _)
    have hrs : ∀ r ∈ rs, truthy (keyOf r) = true :=
      fun r hr => h r (List.mem_cons_of_mem _ hr)
    rw [List.map_cons]
    by_cases hc : seenContains seen (keyOf row) = true
    · rw [dedupLoop_cons_mem row rs seen htr hc,
        dedupKeysAux_cons_mem _ _ _ (by rw [seenContains_map, hc]),
        ih seen hrs]
    · have hc2 : seenContains seen (keyOf row) = false :=
        Bool.eq_false_iff.mpr hc
      rw [dedupLoop_cons_new row rs seen htr hc2,
        dedupKeysAux_cons_new _ _ _ (by rw [seenContains_map, hc2]),
        ih _ hrs, List.map_append]
      rfl

/-- Every pair held by the dedup loop maps its row's own key to the row. -/
theorem dedupLoop_snd : ∀ (rest : List Rec) (seen : List (Val × Rec)),
    (∀ kv ∈ seen, keyOf kv.2 = kv.1) →
    ∀ kv ∈ dedupLoop rest seen, keyOf kv.2 = kv.1 := by
  intro rest
  induction rest with
  | nil => intro seen h kv hkv; exact h kv hkv
  | cons row rs ih =>
    intro seen h kv hkv
    by_cases htr : truthy (keyOf row) = true
    · by_cases hc : seenContains seen (keyOf row) = true
      · rw [dedupLoop_cons_mem row rs seen htr hc] at hkv
        exact ih seen h kv hkv
      · rw [dedupLoop_cons_new row rs seen htr (Bool.eq_false_iff.mpr hc)] at hkv
        refine ih _ ?_ kv hkv
        intro kv2 hkv2
        rcases List.mem_append.mp hkv2 with h2 | h2
        · exact h kv2 h2
        · rw [List.mem_singleton.mp h2]
    · have : dedupLoop (row :: rs) seen = dedupLoop rs seen := by
        simp [dedupLoop, Bool.eq_false_iff.mpr htr]
      rw [this] at hkv
      exact ih seen h kv hkv

/-- Each pair the dedup loop retains points at the first incoming row whose
key compares equal to it. -/
theorem dedupLoop_find : ∀ (rest : List Rec) (seen : List (Val × Rec))
    (processed : List Rec),
    (∀ r ∈ rest, ∃ s, keyOf r = .str s ∧ s ≠ "") →
    (∀ kv ∈ seen, processed.find? (fun x => pyEq (keyOf x) kv.1) = some kv.2) →
    (∀ r ∈ processed, truthy (keyOf r) = false ∨ seenContains seen (keyOf r) = true) →
    ∀ kv ∈ dedupLoop rest seen,
      (processed ++ rest).find? (fun x => pyEq (keyOf x) kv.1) = some kv.2 := by
  intro rest
  induction rest with
  | nil =>
    intro seen processed _ h1 _ kv hkv
    rw [List.append_nil]
    exact h1 kv hkv
  | cons row rs ih =>
    intro seen processed hgood h1 h2 kv hkv
    obtain ⟨s, hks, hs⟩ := hgood row (List.mem_cons_self _ _)
    have htr : truthy (keyOf row) = true := by rw [hks]; simp [truthy, hs]
    have hgrs : ∀ r ∈ rs, ∃ s, keyOf r = .str s ∧ s ≠ "" :=
      fun r hr => hgood r (List.mem_cons_of_mem _ hr)
    have hassoc : processed ++ row :: rs = (processed ++ [row]) ++ rs := by
      rw [List.append_assoc, List.singleton_append]
    rw [hassoc]
    by_cases hc : seenContains seen (keyOf row) = true
    · rw [dedupLoop_cons_mem row rs seen htr hc] at hkv
      refine ih seen (processed ++ [row]) hgrs ?_ ?_ kv hkv
      · intro kv2 hkv2
        rw [List.find?_append, h1 kv2 hkv2, Option.or_some]
      · intro r hr
        rcases List.mem_append.mp hr with h3 | h3
        · exact h2 r h3
        · rw [List.mem_singleton.mp h3]
          exact Or.inr hc
    · have hc2 : seenContains seen (keyOf row) = false := Bool.eq_false_iff.mpr hc
      rw [dedupLoop_cons_new row rs seen htr hc2] at hkv
      refine ih (seen ++ [(keyOf row, row)]) (processed ++ [row]) hgrs ?_ ?_ kv hkv
      · intro kv2 hkv2
        rcases List.mem_append.mp hkv2 with h3 | h3
        · rw [List.find?_append, h1 kv2 h3, Option.or_some]
        · rw [List.mem_singleton.mp h3]
          have hnone : processed.find? (fun x => pyEq (keyOf x) (keyOf row)) = none := by
            rw [List.find?_eq_none]
            intro x hx hpx
            have hxk : keyOf x = keyOf row := by
              rw [hks] at hpx ⊢
              exact (pyEq_str_iff _ _).mp hpx
            rcases h2 x hx with h4 | h4
            · rw [hxk, htr] at h4
              exact Bool.noConfusion h4
            · rw [hxk, hc2] at h4
              exact Bool.noConfusion h4
          rw [List.find?_append, hnone, Option.none_or, List.find?_singleton,
            if_pos (by rw [hks]; exact (pyEq_str_iff _ _).mpr rfl)]
      · intro r hr
        rcases List.mem_append.mp hr with h3 | h3
        · rcases h2 r h3 with h4 | h4
          · exact Or.inl h4
          · refine Or.inr ?_
            unfold seenContains at h4 ⊢
            rw [List.any_append, h4, Bool.true_or]
        · rw [List.mem_singleton.mp h3]
          refine Or.inr ?_
          unfold seenContains
          rw [List.any_append, Bool.or_eq_true]
          refine Or.inr ?_
          simp only [List.any_cons, List.any_nil, Bool.or_false]
          rw [hks]
          exact (pyEq_str_iff _ _).mpr rfl

/-- The accumulator only grows. -/
theorem dedupKeysAux_sub : ∀ (l acc : List Val), ∀ k ∈ acc, k ∈ dedupKeysAux l acc := by
  intro l
  induction l with
  | nil => intro acc k hk; exact hk
  | cons x xs ih =>
    intro acc k hk
    by_cases hc : acc.any (fun a => pyEq a x) = true
    · rw [dedupKeysAux_cons_mem _ _ _ hc]
      exact ih acc k hk
    · rw [dedupKeysAux_cons_new _ _ _ (Bool.eq_false_iff.mpr hc)]
      exact ih _ k (List.mem_append.mpr (Or.inl hk))

/-- The retained keys are pairwise `==`-distinct. -/
theorem dedupKeysAux_pairwise : ∀ (l acc : List Val),
    acc.Pairwise (fun a b => pyEq a b = false) →
    (dedupKeysAux l acc).Pairwise (fun a b => pyEq a b = false) := by
  intro l
  induction l with
  | nil => intro acc h; exact h
  | cons x xs ih =>
    intro acc h
    by_cases hc : acc.any (fun a => pyEq a x) = true
    · rw [dedupKeysAux_cons_mem _ _ _ hc]
      exact ih acc h
    · have hc2 := Bool.eq_false_iff.mpr hc
      rw [dedupKeysAux_cons_new _ _ _ hc2]
      refine ih _ (List.pairwise_append.mpr ⟨h, List.pairwise_singleton _ _, ?_⟩)
      intro a ha b hb
      rw [List.mem_singleton.mp hb]
      exact Bool.eq_false_iff.mpr (List.any_eq_false.mp hc2 a ha)

/-- On string keys, a key appears among the retained keys iff it appears in
the input or the accumulator. -/
theorem dedupKeysAux_mem : ∀ (l acc : List Val),
    (∀ x ∈ l, ∃ s, x = Val.str s) →
    ∀ k, (k ∈ dedupKeysAux l acc ↔ k ∈ acc ∨ k ∈ l) := by
  intro l
  induction l with
  | nil => intro acc _ k; simp [dedupKeysAux]
  | cons x xs ih =>
    intro acc hgood k
    obtain ⟨s, hxs⟩ := hgood x (List.mem_cons_self _ _)
    have hgxs : ∀ y ∈ xs, ∃ s, y = Val.str s :=
      fun y hy => hgood y (List.mem_cons_of_mem _ hy)
    by_cases hc : acc.any (fun a => pyEq a x) = true
    · rw [dedupKeysAux_cons_mem _ _ _ hc]
      obtain ⟨a, ha, hpa⟩ := List.any_eq_true.mp hc
      have hax : a = x := by
        rw [hxs] at hpa ⊢
        exact (pyEq_str_iff _ _).mp hpa
      rw [ih acc hgxs k]
      constructor
      · rintro (h | h)
        · exact Or.inl h
        · exact Or.inr (List.mem_cons_of_mem _ h)
      · rintro (h | h)
        · exact Or.inl h
        · rcases List.mem_cons.mp h with h2 | h2
          · exact Or.inl (h2 ▸ hax ▸ ha)
          · exact Or.inr h2
    · rw [dedupKeysAux_cons_new _ _ _ (Bool.eq_false_iff.mpr hc), ih _ hgxs k]
      constructor
      · rintro (h | h)
        · rcases List.mem_append.mp h with h2 | h2
          · exact Or.inl h2
          · exact Or.inr (List.mem_cons.mpr (Or.inl (List.mem_singleton.mp h2)))
        · exact Or.inr (List.mem_cons_of_mem _ h)
      · rintro (h | h)
        · exact Or.inl (List.mem_append.mpr (Or.inl h))
        · rcases List.mem_cons.mp h with h2 | h2
          · exact Or.inl (List.mem_append.mpr (Or.inr (List.mem_singleton.mpr h2)))
          · exact Or.inr h2

/-- Claim C8: with truthy (non-empty string) identity keys, the dedup stage of
`match_schools` keeps exactly the first row of each distinct `ncessch` key
(in first-seen order), and the resulting count is the number of unique keys. -/
theorem claim_C8 (results : List Rec)
    (hk : ∀ r ∈ results, ∃ s, keyOf r = .str s ∧ s ≠ "") :
    (dedupSchools results).map keyOf = dedupKeys (results.map keyOf) ∧
    (∀ r ∈ dedupSchools results,
      results.find? (fun x => pyEq (keyOf x) (keyOf r)) = some r) ∧
    (dedupSchools results).length = (dedupKeys (results.map keyOf)).length ∧
    (dedupKeys (results.map keyOf)).Pairwise (fun a b => pyEq a b = false) ∧
    (∀ k, k ∈ dedupKeys (results.map keyOf) ↔ k ∈ results.map keyOf) := by
  have htruthy : ∀ r ∈ results, truthy (keyOf r) = true := by
    intro r hr
    obtain ⟨s, hks, hs⟩ := hk r hr
    rw [hks]
    simp [truthy, hs]
  have hsnd : ∀ kv ∈ dedupLoop results [], keyOf kv.2 = kv.1 :=
    dedupLoop_snd results [] (by intro kv hkv; cases hkv)
  have hfst : (dedupLoop results []).map Prod.fst = dedupKeys (results.map keyOf) :=
    dedupLoop_fst results [] htruthy
  have hmain : (dedupSchools results).map keyOf = dedupKeys (results.map keyOf) := by
    unfold dedupSchools
    rw [List.map_map, ← hfst]
    exact List.map_congr_left fun kv hkv => hsnd kv hkv
  refine ⟨hmain, ?_, ?_, dedupKeysAux_pairwise _ [] (List.Pairwise.nil), ?_⟩
  · intro r hr
    obtain ⟨kv, hkv, hkvr⟩ :=
      List.mem_map.mp (show r ∈ (dedupLoop results []).map Prod.snd from hr)
    have hfind := dedupLoop_find results [] [] hk
      (by intro kv2 hkv2; cases hkv2) (by intro r2 hr2; cases hr2) kv hkv
    rw [List.nil_append] at hfind
    rw [← hkvr, hsnd kv hkv]
    exact hfind
  · have := congrArg List.length hmain
    rwa [List.length_map] at this
  · intro k
    have hgood : ∀ x ∈ results.map keyOf, ∃ s, x = Val.str s := by
      intro x hx
      obtain ⟨r, hr, hrx⟩ := List.mem_map.mp hx
      obtain ⟨s, hks, _⟩ := hk r hr
      exact ⟨s, hrx ▸ hks⟩
    rw [dedupKeys, dedupKeysAux_mem _ [] hgood k]
    simp

/-- Rows with a duplicated identity key, for the C8 witness. -/
def dupA1 : Rec := [("ncessch", .str "A"), ("x", .num 1)]

def dupB : Rec := [("ncessch", .str "B")]

def dupA2 : Rec := [("ncessch", .str "A"), ("x", .num 2)]

/-- Witness for C8 on three rows where the key "A" occurs twice. -/
theorem claim_C8_witness :
    (dedupSchools [dupA1, dupB, dupA2]).length =
      (dedupKeys (([dupA1, dupB, dupA2] : List Rec).map keyOf)).length :=
  (claim_C8 [dupA1, dupB, dupA2] (by
    intro r hr
    rcases List.mem_cons.mp hr with rfl | hr
    · exact ⟨"A", by with_unfolding_all rfl, by decide⟩
    rcases List.mem_cons.mp hr with rfl | hr
    · exact ⟨"B", by with_unfolding_all rfl, by decide⟩
    rcases List.mem_cons.mp hr with rfl | hr
    · exact ⟨"A", by with_unfolding_all rfl, by decide⟩
    cases hr)).2.2.1

/-! ## Claim C9 -/

theorem hget_append (h : Heap) (l : List Rec) (p : Nat) (hp : p < h.length) :
    hget (h ++ l) p = hget h p := by
  unfold hget
  exact List.getD_append _ _ _ _ hp

theorem hget_set_ne (h : Heap) (q : Nat) (r : Rec) (p : Nat) (hne : q ≠ p) :
    hget (hset h q r) p = hget h p := by
  unfold hget hset
  rw [List.getD_eq_getElem?_getD, List.getD_eq_getElem?_getD,
    List.getElem?_set_ne hne]

/-- The enrichment loop only allocates: it never writes an existing object,
its heap only grows, and every returned pointer is fresh. -/
theorem enrichLoopH_ok (home : String) (profile : Rec) :
    ∀ (ptrs : List Nat) (h : Heap) (qs : List Nat) (h2 : Heap),
      enrichLoopH home profile ptrs h = .ok (qs, h2) →
      (∀ p, p < h.length → hget h2 p = hget h p) ∧
      h.length ≤ h2.length ∧
      (∀ q ∈ qs, h.length ≤ q) := by
  intro ptrs
  induction ptrs with
  | nil =>
    intro h qs h2 hok
    cases hok
    exact ⟨fun p _ => rfl, le_refl _, fun q hq => absurd hq (List.not_mem_nil q)⟩
  | cons p ps ih =>
    intro h qs h2 hok
    simp only [enrichLoopH, halloc] at hok
    obtain ⟨e, he, hok⟩ := exBind_ok hok
    obtain ⟨⟨qs1, h3⟩, hrec, hok⟩ := exBind_ok hok
    cases hok
    obtain ⟨hpre, hlen, hfresh⟩ := ih (h ++ [e]) qs1 h3 hrec
    have hgrow : h.length ≤ (h ++ [e]).length := by
      rw [List.length_append]
      omega
    refine ⟨?_, le_trans hgrow hlen, ?_⟩
    · intro p2 hp2
      rw [hpre p2 (lt_of_lt_of_le hp2 hgrow), hget_append h [e] p2 hp2]
    · intro q hq
      rcases List.mem_cons.mp hq with rfl | hq
      · exact le_refl _
      · exact le_trans hgrow (hfresh q hq)

/-- Writing ranks at pointers at or beyond `n` leaves everything below `n`
unchanged. -/
theorem addRanksH_frame (p n : Nat) (hp : p < n) :
    ∀ (i : Nat) (ps : List Nat) (h : Heap), (∀ q ∈ ps, n ≤ q) →
      hget (addRanksH i ps h) p = hget h p := by
  intro i ps
  induction ps generalizing i with
  | nil => intro h _; rfl
  | cons q qs ih =>
    intro h hq
    show hget (addRanksH (i + 1) qs (hset h q _)) p = hget h p
    rw [ih (i + 1) (hset h q _) (fun q2 hq2 => hq q2 (List.mem_cons_of_mem _ hq2)),
      hget_set_ne h q _ p (by have := hq q (List.mem_cons_self _ _); omega)]

/-- Claim C9: a successful `rank_schools` never mutates its input records:
every enrichment goes to a fresh copy, the rank assignment targets those
copies, and each input object holds exactly its original keys and values
afterwards. -/
theorem claim_C9 (ptrs : List Nat) (profile : Rec) (h : Heap) (out : List Nat)
    (h2 : Heap)
    (hok : rankBodyH ptrs profile h = .ok (out, h2))
    (hvalid : ∀ p ∈ ptrs, p < h.length) :
    ∀ p ∈ ptrs, hget h2 p = hget h p := by
  intro p hp
  unfold rankBodyH at hok
  obtain ⟨home, hh, hok⟩ := exBind_ok hok
  obtain ⟨⟨qs, h1⟩, hloop, hok⟩ := exBind_ok hok
  cases hok
  obtain ⟨hpre, hlen, hqs⟩ := enrichLoopH_ok home profile ptrs h qs h1 hloop
  have hsortmem : ∀ q ∈ qs.insertionSort
      (fun x y => msKey (hget h1 y) ≤ msKey (hget h1 x)), h.length ≤ q := by
    intro q hq
    exact hqs q ((List.perm_insertionSort _ qs).mem_iff.mp hq)
  have h3 := addRanksH_frame p h.length (hvalid p hp) 1
    (qs.insertionSort (fun x y => msKey (hget h1 y) ≤ msKey (hget h1 x)))
    h1 hsortmem
  rw [h3]
  exact hpre p (hvalid p hp)

/-- Witness for C9 on a one-record heap. -/
theorem claim_C9_witness :
    hget (((rankBodyH [0] [] [[("graduation_rate", .num 92)]]).toOption.getD
      ([], [])).2) 0 = hget [[("graduation_rate", .num 92)]] 0 :=
  claim_C9 [0] [] [[("graduation_rate", .num 92)]]
    ((rankBodyH [0] [] [[("graduation_rate", .num 92)]]).toOption.getD ([], [])).1
    ((rankBodyH [0] [] [[("graduation_rate", .num 92)]]).toOption.getD ([], [])).2
    (by with_unfolding_all rfl)
    (by
      intro p hp
      rcases List.mem_cons.mp hp with rfl | hp
      · exact Nat.zero_lt_one
      · cases hp)
    0 (List.mem_singleton.mpr rfl)

end SchoolMatcher
